import Mathlib

/-!
# Autodata: the scraper's leaf cycle, its two streamed output files, and the CSV converter

A shallow embedding of `scrapy.js` (tower/unit loops, the per-leaf
fetch → parse → validate cycle, the two streamed JSON files) and of
`json_to_csv.js` (the per-record CSV row).

What is outside the two scripts is an input of the model:

* the browser page: the run receives the towers, and under each tower the
  units, that `getOptions` returned, in the listed order;
* the detail endpoint and the HTML parser: every unit carries the outcome of its
  `fetch` / `response.text()` / `new JSDOM(html)` / `querySelector` sequence,
  either an exception with its message or the payload together with what
  `.table-bordered` selected (nothing, or the table's `tr` rows, each the list of
  the `textContent` of its `td` cells);
* `JSON.stringify(·, null, 2)`: the serializer is a parameter of the run, and
  `nodeJson` is the ECMAScript one.

A stream is the list of chunks handed to `write`, in call order; the file's text
is their concatenation.
-/

namespace Autodata

/-! ## JavaScript strings and plain objects -/

/-- The characters `String.prototype.trim` strips: ECMAScript WhiteSpace and
LineTerminator code points. -/
def isJsWhiteSpace (c : Char) : Bool :=
  let n := c.toNat
  n = 0x09 || n = 0x0A || n = 0x0B || n = 0x0C || n = 0x0D || n = 0x20 || n = 0xA0 ||
  n = 0x1680 || (0x2000 ≤ n && n ≤ 0x200A) || n = 0x2028 || n = 0x2029 || n = 0x202F ||
  n = 0x205F || n = 0x3000 || n = 0xFEFF

/-- Trimming on the character list: drop the leading, then the trailing white space. -/
def trimChars (l : List Char) : List Char :=
  ((l.dropWhile isJsWhiteSpace).reverse.dropWhile isJsWhiteSpace).reverse

/-- The method `String.prototype.trim`. -/
def jsTrim (s : String) : String := ⟨trimChars s.data⟩

/-- The object `data` of the leaf cycle (`const data = {}`): a plain object whose own
properties all hold strings, listed in creation order. -/
abbrev FieldMap := List (String × String)

/-- The read `data[key]` for a key that `Object.prototype` does not define (the scripts
read only `'Flat No.'`, `'Name'` and `'Mobile'`): the own property's value, `none` for
`undefined`. -/
def ownGet : FieldMap → String → Option String
  | [], _ => none
  | (k, v) :: rest, key => if k = key then some v else ownGet rest key

/-- Defining or overwriting an own data property: an existing key keeps its place and
takes the new value, a new key is created last. -/
def ownPut : FieldMap → String → String → FieldMap
  | [], key, value => [(key, value)]
  | (k, v) :: rest, key, value =>
    if k = key then (k, value) :: rest else (k, v) :: ownPut rest key value

/-- The assignment `data[key] = value` with a string `value` on an object created by
`{}`. The key `"__proto__"` is the accessor inherited from `Object.prototype`, whose
setter ignores a value that is neither an object nor `null`: no own property is created.
Every other key of `Object.prototype` is a writable data property, so the assignment
creates or overwrites an own property. -/
def assign (data : FieldMap) (key value : String) : FieldMap :=
  if key = "__proto__" then data else ownPut data key value

/-- The call `Object.keys(data)`, as a set of names (its length is all the script uses). -/
def objectKeys (data : FieldMap) : List String := data.map Prod.fst

/-! ## Records -/

/-- An entry of a dropdown as `getOptions` returns it: `{ value, text }`. -/
structure SelectOption where
  value : String
  text : String
  deriving DecidableEq, Repr

/-- The object `result` written to the accepted file (scrapy.js line 163). -/
structure Result where
  project : String
  tower : String
  unit : String
  details : FieldMap
  deriving DecidableEq, Repr

/-- The `details` of a rejected entry: the object `data`, or a string (the raw payload
`html`, or `err.message`). -/
inductive Details where
  | fields (data : FieldMap)
  | text (s : String)
  deriving DecidableEq, Repr

/-- The object handed to `logRejectedEntry`. -/
structure RejectedEntry where
  project : String
  tower : String
  unit : String
  reason : String
  details : Details
  deriving DecidableEq, Repr

/-- What the `try` block of one leaf obtains before it touches a stream: an exception
(with `err.message`), or the payload `html` with the selected table, if any, as the
cell texts of its rows. -/
inductive Fetched where
  | threw (message : String)
  | body (html : String) (table : Option (List (List String)))
  deriving DecidableEq, Repr

/-- One iteration of the unit loop: the listed unit and what its request yields. -/
structure UnitVisit where
  unit : SelectOption
  response : Fetched
  deriving DecidableEq, Repr

/-- One iteration of the tower loop: the listed tower and the units listed under it. -/
structure TowerVisit where
  tower : SelectOption
  units : List UnitVisit
  deriving DecidableEq, Repr

/-! ## Serialization -/

/-- The two uses of `JSON.stringify(·, null, 2)`. -/
structure Json where
  ofResult : Result → String
  ofRejected : RejectedEntry → String

/-- Lower-case hexadecimal digit. -/
def hexDigit (n : Nat) : Char :=
  if n < 10 then Char.ofNat (48 + n) else Char.ofNat (87 + n)

/-- QuoteJSONString on one code point. -/
def quoteJSONChar (c : Char) : List Char :=
  if c = '"' then ['\\', '"']
  else if c = '\\' then ['\\', '\\']
  else if c.toNat = 8 then ['\\', 'b']
  else if c.toNat = 12 then ['\\', 'f']
  else if c.toNat = 10 then ['\\', 'n']
  else if c.toNat = 13 then ['\\', 'r']
  else if c.toNat = 9 then ['\\', 't']
  else if c.toNat < 32 then ['\\', 'u', '0', '0', hexDigit (c.toNat / 16), hexDigit (c.toNat % 16)]
  else [c]

/-- QuoteJSONString. -/
def quoteJSONString (s : String) : String :=
  ⟨'"' :: (s.data.map quoteJSONChar).flatten ++ ['"']⟩

/-- The value of a decimal digit string. -/
def digitsValue (l : List Char) : Nat :=
  l.foldl (fun n c => 10 * n + (c.toNat - 48)) 0

/-- The array index a property key denotes, if it is one: a canonical decimal numeral
below `2 ^ 32 - 1`. -/
def arrayIndex (key : String) : Option Nat :=
  match key.data with
  | [] => none
  | c :: cs =>
    if (c :: cs).all Char.isDigit && (c != '0' || cs.isEmpty) && digitsValue (c :: cs) < 2 ^ 32 - 1
    then some (digitsValue (c :: cs)) else none

/-- Insertion of an indexed property into a list sorted by index. -/
def insertByIndex (p : Nat × String × String) : List (Nat × String × String) → List (Nat × String × String)
  | [] => [p]
  | q :: rest => if p.1 ≤ q.1 then p :: q :: rest else q :: insertByIndex p rest

/-- Own property enumeration order: array indices ascending, then the other keys in
creation order. -/
def enumerationOrder (data : FieldMap) : FieldMap :=
  let indexed := data.filterMap (fun kv => (arrayIndex kv.1).map (fun i => (i, kv.1, kv.2)))
  let named := data.filter (fun kv => (arrayIndex kv.1).isNone)
  (indexed.foldr insertByIndex []).map Prod.snd ++ named

/-- SerializeJSONObject with gap of two spaces, for an object of string properties at
nesting depth `depth` (the number of two-space steps before its closing brace). -/
def stringifyObject (depth : Nat) (props : List (String × String)) : String :=
  match props with
  | [] => "\x7b\x7d"
  | _ =>
    let stepback := String.join (List.replicate depth "  ")
    let indent := stepback ++ "  "
    "\x7b\n" ++ indent ++ (",\n" ++ indent).intercalate (props.map (fun kv => kv.1 ++ ": " ++ kv.2)) ++
      "\n" ++ stepback ++ "\x7d"

/-- The serialized `details` object, nested one level down. -/
def stringifyFields (data : FieldMap) : String :=
  stringifyObject 1 ((enumerationOrder data).map (fun kv => (quoteJSONString kv.1, quoteJSONString kv.2)))

/-- The ECMAScript `JSON.stringify(·, null, 2)` on the two record shapes. -/
def nodeJson : Json where
  ofResult := fun r =>
    stringifyObject 0 [
      (quoteJSONString "project", quoteJSONString r.project),
      (quoteJSONString "tower", quoteJSONString r.tower),
      (quoteJSONString "unit", quoteJSONString r.unit),
      (quoteJSONString "details", stringifyFields r.details)]
  ofRejected := fun r =>
    stringifyObject 0 [
      (quoteJSONString "project", quoteJSONString r.project),
      (quoteJSONString "tower", quoteJSONString r.tower),
      (quoteJSONString "unit", quoteJSONString r.unit),
      (quoteJSONString "reason", quoteJSONString r.reason),
      (quoteJSONString "details",
        match r.details with
        | Details.fields data => stringifyFields data
        | Details.text s => quoteJSONString s)]

/-! ## scrapy.js: streams, counters, the leaf cycle and the loops -/

/-- The mutable state the loops share (scrapy.js lines 92–100): each stream as the list
of chunks written so far, its first-entry flag and its counter. -/
structure State where
  writeStream : List String
  isFirstEntry : Bool
  entryCount : Nat
  rejectedStream : List String
  isFirstRejected : Bool
  rejectedCount : Nat
  deriving DecidableEq, Repr

/-- The state after the streaming write setup: both files hold the opening bracket. -/
def initialState : State where
  writeStream := ["[\n"]
  isFirstEntry := true
  entryCount := 0
  rejectedStream := ["[\n"]
  isFirstRejected := true
  rejectedCount := 0

/-- The helper `logRejectedEntry` (lines 103–111). -/
def logRejectedEntry (J : Json) (st : State) (rejectedEntry : RejectedEntry) : State :=
  let jsonString := J.ofRejected rejectedEntry
  let afterSep := if !st.isFirstRejected then st.rejectedStream ++ [",\n"] else st.rejectedStream
  { st with
    rejectedStream := afterSep ++ [jsonString]
    isFirstRejected := false
    rejectedCount := st.rejectedCount + 1 }

/-- The accepted write (lines 163–170). -/
def writeResult (J : Json) (st : State) (result : Result) : State :=
  let jsonString := J.ofResult result
  let afterSep := if !st.isFirstEntry then st.writeStream ++ [",\n"] else st.writeStream
  { st with
    writeStream := afterSep ++ [jsonString]
    isFirstEntry := false
    entryCount := st.entryCount + 1 }

/-- The body of `rows.forEach` (lines 146–150): a four-cell row assigns its two pairs. -/
def addRow (data : FieldMap) (cells : List String) : FieldMap :=
  match cells with
  | [c0, c1, c2, c3] => assign (assign data (jsTrim c0) (jsTrim c1)) (jsTrim c2) (jsTrim c3)
  | _ => data

/-- The row walk (lines 144–151), starting from the empty object. -/
def extractData (rows : List (List String)) : FieldMap :=
  rows.foldl addRow []

/-- The test `flatNo && unit.text !== flatNo` (line 158): `undefined` and the empty
string are falsy. -/
def mismatch (flatNo : Option String) (unitText : String) : Bool :=
  match flatNo with
  | none => false
  | some f => f != "" && unitText != f

/-- The leaf cycle: the body of the unit loop (lines 121–174) once the request has
yielded `response`. -/
def leafCycle (J : Json) (st : State) (project tower unit : SelectOption)
    (response : Fetched) : State :=
  match response with
  | Fetched.threw message =>
    logRejectedEntry J st
      { project := project.text, tower := tower.text, unit := unit.text,
        reason := "Fetch or parse error", details := Details.text message }
  | Fetched.body html none =>
    logRejectedEntry J st
      { project := project.text, tower := tower.text, unit := unit.text,
        reason := "No table found", details := Details.text html }
  | Fetched.body _ (some rows) =>
    let data := extractData rows
    let flatNo := ownGet data "Flat No."
    let hasData := decide ((objectKeys data).length > 0)
    if !hasData then
      logRejectedEntry J st
        { project := project.text, tower := tower.text, unit := unit.text,
          reason := "Empty table - no data found", details := Details.fields data }
    else if mismatch flatNo unit.text then
      logRejectedEntry J st
        { project := project.text, tower := tower.text, unit := unit.text,
          reason := "Unit name mismatch - expected: " ++ unit.text ++ ", got: " ++ flatNo.getD "",
          details := Details.fields data }
    else
      writeResult J st
        { project := project.text, tower := tower.text, unit := unit.text, details := data }

/-- The unit loop under one tower (lines 120–175). -/
def unitLoop (J : Json) (project tower : SelectOption) (units : List UnitVisit)
    (st : State) : State :=
  units.foldl (fun s u => leafCycle J s project tower u.unit u.response) st

/-- The tower loop (lines 116–176). -/
def towerLoop (J : Json) (project : SelectOption) (towers : List TowerVisit)
    (st : State) : State :=
  towers.foldl (fun s t => unitLoop J project t.tower t.units s) st

/-- Closing the two streams (lines 177–180). -/
def closeStreams (st : State) : State :=
  { st with
    writeStream := st.writeStream ++ ["\n]"]
    rejectedStream := st.rejectedStream ++ ["\n]"] }

/-- A run that completes normally, from the write setup to the closed streams. -/
def run (J : Json) (project : SelectOption) (towers : List TowerVisit) : State :=
  closeStreams (towerLoop J project towers initialState)

/-- The text of a file: the chunks written to its stream, concatenated. -/
def fileText (chunks : List String) : String := String.join chunks

/-! ## The leaf cycle as a classification

The leaf cycle touches the state only through `logRejectedEntry` and the accepted
write, each reached once on every path. `classify` names the record a leaf yields and
`record` the write it causes; `leafCycle_eq_record` shows the leaf cycle is their
composition. -/

/-- The record one leaf yields: the object written to the accepted stream, or the object
handed to `logRejectedEntry`. -/
inductive Outcome where
  | accepted (result : Result)
  | rejected (entry : RejectedEntry)
  deriving DecidableEq, Repr

/-- The branch of the leaf cycle taken for `response` and the record built on it
(lines 137–163 and 173). -/
def classify (project tower unit : SelectOption) (response : Fetched) : Outcome :=
  match response with
  | Fetched.threw message =>
    Outcome.rejected
      { project := project.text, tower := tower.text, unit := unit.text,
        reason := "Fetch or parse error", details := Details.text message }
  | Fetched.body html none =>
    Outcome.rejected
      { project := project.text, tower := tower.text, unit := unit.text,
        reason := "No table found", details := Details.text html }
  | Fetched.body _ (some rows) =>
    let data := extractData rows
    let flatNo := ownGet data "Flat No."
    let hasData := decide ((objectKeys data).length > 0)
    if !hasData then
      Outcome.rejected
        { project := project.text, tower := tower.text, unit := unit.text,
          reason := "Empty table - no data found", details := Details.fields data }
    else if mismatch flatNo unit.text then
      Outcome.rejected
        { project := project.text, tower := tower.text, unit := unit.text,
          reason := "Unit name mismatch - expected: " ++ unit.text ++ ", got: " ++ flatNo.getD "",
          details := Details.fields data }
    else
      Outcome.accepted
        { project := project.text, tower := tower.text, unit := unit.text, details := data }

/-- The write an outcome causes. -/
def record (J : Json) (st : State) : Outcome → State
  | Outcome.accepted result => writeResult J st result
  | Outcome.rejected entry => logRejectedEntry J st entry

/-- A leaf of the traversal: the tower and unit of one inner iteration and what its
request yields. -/
structure Leaf where
  tower : SelectOption
  unit : SelectOption
  response : Fetched
  deriving DecidableEq, Repr

/-- The leaves in enumeration order: towers in listed order, and under each tower its
units in listed order. -/
def leaves (towers : List TowerVisit) : List Leaf :=
  towers.flatMap (fun t => t.units.map (fun u => { tower := t.tower, unit := u.unit, response := u.response }))

/-- The accepted record of a leaf, if the leaf is classified as accepted. -/
def acceptedOf (project : SelectOption) (l : Leaf) : Option Result :=
  match classify project l.tower l.unit l.response with
  | Outcome.accepted result => some result
  | Outcome.rejected _ => none

/-- The rejected record of a leaf, if the leaf is classified as rejected. -/
def rejectedOf (project : SelectOption) (l : Leaf) : Option RejectedEntry :=
  match classify project l.tower l.unit l.response with
  | Outcome.accepted _ => none
  | Outcome.rejected entry => some entry

/-! ## The extracted map as the specification describes it -/

/-- One row of the specification's fold: a row of exactly four cells `[l1, v1, l2, v2]`
sets key `trim l1` to `trim v1`, then key `trim l2` to `trim v2`; a row with any other
number of cells leaves the map unchanged. -/
def specRow (m : String → Option String) (row : List String) : String → Option String :=
  match row with
  | [l1, v1, l2, v2] =>
    Function.update (Function.update m (jsTrim l1) (some (jsTrim v1))) (jsTrim l2)
      (some (jsTrim v2))
  | _ => m

/-- The Field Map of the specification, as a finite map seen through its lookup: the fold
of `specRow` over the rows in order, starting from the empty map. -/
def specFieldMap (rows : List (List String)) : String → Option String :=
  rows.foldl specRow (fun _ => none)

/-- The trimmed labels of the four-cell rows, in row order. -/
def rowLabels (rows : List (List String)) : List String :=
  rows.flatMap (fun row =>
    match row with
    | [l1, _, l2, _] => [jsTrim l1, jsTrim l2]
    | _ => [])

/-! ## json_to_csv.js -/

/-- An element of the accepted file as the converter reads it: `obj['project']` and
`obj.details`, either of which may be missing; the values are strings, as the scraper
writes them. -/
structure ParsedRecord where
  project : Option String
  details : Option FieldMap
  deriving DecidableEq, Repr

/-- The global replace `.replace(/"/g, '""')`, scanning the characters left to right. -/
def replaceQuotes : List Char → List Char
  | [] => []
  | c :: rest => if c = '"' then '"' :: '"' :: replaceQuotes rest else c :: replaceQuotes rest

/-- The field mapper `field => '"' + String(field).replace(/"/g, '""') + '"'`. -/
def csvField (field : String) : String :=
  "\"" ++ String.mk (replaceQuotes field.data) ++ "\""

/-- The default `x || ''` on a string or `undefined`. -/
def orEmpty (x : Option String) : String :=
  match x with
  | some s => if s = "" then "" else s
  | none => ""

/-- The row built by the `data` handler (lines 23–29), without the line terminator. -/
def csvRow (obj : ParsedRecord) : String :=
  let details := obj.details.getD []
  ",".intercalate
    ([orEmpty (ownGet details "Name"),
      orEmpty (ownGet details "Mobile"),
      orEmpty obj.project,
      orEmpty (ownGet details "Flat No.")].map csvField)

/-- The quoting of the specification: every double quote of the text doubled, the whole
wrapped in one pair of double quotes. -/
def specQuoted (text : String) : String :=
  "\"" ++ String.join (text.data.map (fun c => if c = '"' then "\"\"" else String.singleton c)) ++ "\""

/-- The state reached from the write setup once the accepted records `A` and the
rejected records `R` have been appended, each list in order. -/
def stateAfter (J : Json) (A : List Result) (R : List RejectedEntry) : State where
  writeStream := "[\n" :: List.intersperse ",\n" (A.map J.ofResult)
  isFirstEntry := A.isEmpty
  entryCount := A.length
  rejectedStream := "[\n" :: List.intersperse ",\n" (R.map J.ofRejected)
  isFirstRejected := R.isEmpty
  rejectedCount := R.length

/-! ## The leaf cycle -/

theorem leafCycle_eq_record (J : Json) (st : State) (project tower unit : SelectOption)
    (response : Fetched) :
    leafCycle J st project tower unit response
      = record J st (classify project tower unit response) := by
  unfold leafCycle classify
  cases response with
  | threw message => rfl
  | body html table =>
    cases table with
    | none => rfl
    | some rows =>
      simp only
      split
      · rfl
      · split <;> rfl

theorem objectKeys_length_pos (data : FieldMap) :
    decide ((objectKeys data).length > 0) = true ↔ data ≠ [] := by
  cases data <;> simp [objectKeys]

theorem mismatch_eq_true (flatNo : Option String) (unitText : String) :
    mismatch flatNo unitText = true ↔ ∃ f, flatNo = some f ∧ f ≠ "" ∧ unitText ≠ f := by
  cases flatNo <;> simp [mismatch]

/-- What `classify` answers on a payload with a table, by the three tests in order. -/
theorem classify_table (project tower unit : SelectOption) (html : String)
    (rows : List (List String)) :
    classify project tower unit (Fetched.body html (some rows)) =
      if extractData rows = [] then
        Outcome.rejected
          { project := project.text, tower := tower.text, unit := unit.text,
            reason := "Empty table - no data found",
            details := Details.fields (extractData rows) }
      else if mismatch (ownGet (extractData rows) "Flat No.") unit.text then
        Outcome.rejected
          { project := project.text, tower := tower.text, unit := unit.text,
            reason := "Unit name mismatch - expected: " ++ unit.text ++ ", got: "
              ++ (ownGet (extractData rows) "Flat No.").getD "",
            details := Details.fields (extractData rows) }
      else
        Outcome.accepted
          { project := project.text, tower := tower.text, unit := unit.text,
            details := extractData rows } := by
  unfold classify
  simp only
  by_cases h : extractData rows = []
  · simp [h, objectKeys]
  · have hk : decide ((objectKeys (extractData rows)).length > 0) = true :=
      (objectKeys_length_pos _).2 h
    simp [h, hk]

/-- An accepted outcome comes from a payload with a table whose map is non-empty and
passes the unit-name test. -/
theorem classify_accepted_iff (project tower unit : SelectOption) (response : Fetched)
    (result : Result) :
    classify project tower unit response = Outcome.accepted result ↔
      ∃ html rows, response = Fetched.body html (some rows) ∧ extractData rows ≠ [] ∧
        mismatch (ownGet (extractData rows) "Flat No.") unit.text = false ∧
        result = { project := project.text, tower := tower.text, unit := unit.text,
                   details := extractData rows } := by
  cases response with
  | threw message => simp [classify]
  | body html table =>
    cases table with
    | none => simp [classify]
    | some rows =>
      rw [classify_table]
      by_cases h : extractData rows = []
      · simp [h]
      · by_cases hm : mismatch (ownGet (extractData rows) "Flat No.") unit.text = true
        · simp [h, hm]
        · simp only [Bool.not_eq_true] at hm
          simp only [h, hm, if_false, Bool.false_eq_true, Outcome.accepted.injEq,
            Fetched.body.injEq, Option.some.injEq]
          constructor
          · intro hr
            exact ⟨html, rows, ⟨rfl, rfl⟩, h, hm, hr.symm⟩
          · rintro ⟨html1, rows1, ⟨-, hrows⟩, -, -, hr⟩
            subst hrows
            exact hr.symm

/-- What `logRejectedEntry` writes: the separator unless the entry is the first, then the
serialized entry, at the end of the rejected stream. -/
theorem logRejectedEntry_rejectedStream (J : Json) (st : State) (entry : RejectedEntry) :
    (logRejectedEntry J st entry).rejectedStream
      = st.rejectedStream ++ (if st.isFirstRejected then [] else [",\n"])
          ++ [J.ofRejected entry] := by
  unfold logRejectedEntry
  cases st.isFirstRejected <;> simp

/-- What the accepted write writes: the separator unless the record is the first, then
the serialized record, at the end of the accepted stream. -/
theorem writeResult_writeStream (J : Json) (st : State) (result : Result) :
    (writeResult J st result).writeStream
      = st.writeStream ++ (if st.isFirstEntry then [] else [",\n"]) ++ [J.ofResult result] := by
  unfold writeResult
  cases st.isFirstEntry <;> simp

/-- C1 (as stated, refuted): for the unit labelled `A-1`, a table whose `Flat No.` cell is
empty yields the map `{"Flat No.": "", "Name": "X"}`; the leaf cycle writes it to the
accepted stream, so the accepted record's `details["Flat No."]` is present and is not the
record's unit label. -/
theorem accepted_flatNo_differs_from_unit :
    leafCycle nodeJson initialState ⟨"7", "Heartbeat City"⟩ ⟨"12", "Tower A"⟩ ⟨"345", "A-1"⟩
        (Fetched.body "<table class=\"table-bordered\">...</table>"
          (some [["Flat No.", "", "Name", "X"]]))
      = writeResult nodeJson initialState
          { project := "Heartbeat City", tower := "Tower A", unit := "A-1",
            details := [("Flat No.", ""), ("Name", "X")] }
    ∧ ownGet [("Flat No.", ""), ("Name", "X")] "Flat No." = some ""
    ∧ "" ≠ "A-1" := by
  refine ⟨?_, by decide, by decide⟩
  rw [leafCycle_eq_record]
  rfl

/-- C1 (amended): whenever the leaf cycle writes an accepted record whose details hold a
non-empty `"Flat No."` value, that value equals the record's unit label, which is the
label of the leaf's unit. -/
theorem accepted_flatNo_eq_unit (J : Json) (st : State) (project tower unit : SelectOption)
    (response : Fetched) (result : Result) (v : String)
    (hacc : classify project tower unit response = Outcome.accepted result)
    (hv : ownGet result.details "Flat No." = some v) (hne : v ≠ "") :
    leafCycle J st project tower unit response = writeResult J st result
      ∧ result.unit = unit.text ∧ v = result.unit := by
  have hleaf := leafCycle_eq_record J st project tower unit response
  rw [hacc] at hleaf
  obtain ⟨html, rows, -, -, hm, hr⟩ := (classify_accepted_iff _ _ _ _ _).1 hacc
  subst hr
  refine ⟨hleaf, rfl, ?_⟩
  simp only at hv
  by_contra hvu
  have : mismatch (ownGet (extractData rows) "Flat No.") unit.text = true :=
    (mismatch_eq_true _ _).2 ⟨v, hv, hne, fun h => hvu h.symm⟩
  rw [hm] at this
  exact Bool.false_ne_true this

/-- Witness of C1 (amended): unit `C-101` with a `Flat No.` cell ` C-101 `. -/
theorem accepted_flatNo_eq_unit_witness :
    classify ⟨"7", "Heartbeat City"⟩ ⟨"12", "Tower C"⟩ ⟨"345", "C-101"⟩
        (Fetched.body "" (some [["Name", "A. Sharma", "Flat No.", " C-101 "]]))
      = Outcome.accepted
          { project := "Heartbeat City", tower := "Tower C", unit := "C-101",
            details := [("Name", "A. Sharma"), ("Flat No.", "C-101")] }
    ∧ ownGet [("Name", "A. Sharma"), ("Flat No.", "C-101")] "Flat No." = some "C-101"
    ∧ "C-101" ≠ ""
    ∧ leafCycle nodeJson initialState ⟨"7", "Heartbeat City"⟩ ⟨"12", "Tower C"⟩ ⟨"345", "C-101"⟩
        (Fetched.body "" (some [["Name", "A. Sharma", "Flat No.", " C-101 "]]))
      = writeResult nodeJson initialState
          { project := "Heartbeat City", tower := "Tower C", unit := "C-101",
            details := [("Name", "A. Sharma"), ("Flat No.", "C-101")] }
    ∧ "C-101" = "C-101" ∧ "C-101" = "C-101" :=
  ⟨by decide, by decide, by decide,
  accepted_flatNo_eq_unit nodeJson initialState ⟨"7", "Heartbeat City"⟩ ⟨"12", "Tower C"⟩
    ⟨"345", "C-101"⟩ (Fetched.body "" (some [["Name", "A. Sharma", "Flat No.", " C-101 "]]))
    { project := "Heartbeat City", tower := "Tower C", unit := "C-101",
      details := [("Name", "A. Sharma"), ("Flat No.", "C-101")] }
    "C-101" (by decide) (by decide) (by decide)⟩

/-- C5 (as stated, refuted): for the unit labelled `B-203`, a table whose `Flat No.` cell
holds only blanks yields a map whose `"Flat No."` value is the empty string, which differs
from `B-203`; the leaf cycle logs no rejected entry and writes the accepted record. -/
theorem blank_flatNo_is_not_rejected :
    ownGet (extractData [["Name", "A. Sharma", "Flat No.", "   "]]) "Flat No." = some ""
    ∧ "" ≠ "B-203"
    ∧ classify ⟨"7", "Heartbeat City"⟩ ⟨"12", "Tower B"⟩ ⟨"203", "B-203"⟩
        (Fetched.body "" (some [["Name", "A. Sharma", "Flat No.", "   "]]))
      = Outcome.accepted
          { project := "Heartbeat City", tower := "Tower B", unit := "B-203",
            details := [("Name", "A. Sharma"), ("Flat No.", "")] }
    ∧ (leafCycle nodeJson initialState ⟨"7", "Heartbeat City"⟩ ⟨"12", "Tower B"⟩
        ⟨"203", "B-203"⟩
        (Fetched.body "" (some [["Name", "A. Sharma", "Flat No.", "   "]]))).rejectedStream
      = initialState.rejectedStream := by
  refine ⟨by decide, by decide, by decide, ?_⟩
  rw [leafCycle_eq_record]
  rfl

/-- C5 (amended): for every unit label `u` and every payload with a bordered table whose
extracted map holds a non-empty `"Flat No."` value `v` that differs from `u`, the leaf
cycle logs the rejected entry with reason
`"Unit name mismatch - expected: " ++ u ++ ", got: " ++ v` and the map as details: the
rejected stream gains the separator (unless the entry is the first) and the serialized
entry, its flag is cleared and its counter grows by one; the accepted stream, its flag
and its counter are untouched. -/
theorem mismatch_rejected (J : Json) (st : State) (project tower unit : SelectOption)
    (html : String) (rows : List (List String)) (v : String)
    (hv : ownGet (extractData rows) "Flat No." = some v) (hne : v ≠ "")
    (hdiff : v ≠ unit.text) :
    leafCycle J st project tower unit (Fetched.body html (some rows))
      = logRejectedEntry J st
          { project := project.text, tower := tower.text, unit := unit.text,
            reason := "Unit name mismatch - expected: " ++ unit.text ++ ", got: " ++ v,
            details := Details.fields (extractData rows) }
    ∧ (leafCycle J st project tower unit (Fetched.body html (some rows))).writeStream
        = st.writeStream
    ∧ (leafCycle J st project tower unit (Fetched.body html (some rows))).isFirstEntry
        = st.isFirstEntry
    ∧ (leafCycle J st project tower unit (Fetched.body html (some rows))).entryCount
        = st.entryCount
    ∧ classify project tower unit (Fetched.body html (some rows))
      = Outcome.rejected
          { project := project.text, tower := tower.text, unit := unit.text,
            reason := "Unit name mismatch - expected: " ++ unit.text ++ ", got: " ++ v,
            details := Details.fields (extractData rows) }
    ∧ (leafCycle J st project tower unit (Fetched.body html (some rows))).rejectedStream
      = st.rejectedStream ++ (if st.isFirstRejected then [] else [",\n"])
          ++ [J.ofRejected
                { project := project.text, tower := tower.text, unit := unit.text,
                  reason := "Unit name mismatch - expected: " ++ unit.text ++ ", got: " ++ v,
                  details := Details.fields (extractData rows) }]
    ∧ (leafCycle J st project tower unit (Fetched.body html (some rows))).isFirstRejected
        = false
    ∧ (leafCycle J st project tower unit (Fetched.body html (some rows))).rejectedCount
        = st.rejectedCount + 1 := by
  have hdata : extractData rows ≠ [] := by
    intro h
    rw [h] at hv
    simp [ownGet] at hv
  have hm : mismatch (ownGet (extractData rows) "Flat No.") unit.text = true :=
    (mismatch_eq_true _ _).2 ⟨v, hv, hne, fun h => hdiff h.symm⟩
  have hleaf : leafCycle J st project tower unit (Fetched.body html (some rows))
      = logRejectedEntry J st
          { project := project.text, tower := tower.text, unit := unit.text,
            reason := "Unit name mismatch - expected: " ++ unit.text ++ ", got: " ++ v,
            details := Details.fields (extractData rows) } := by
    rw [leafCycle_eq_record, classify_table, if_neg hdata, if_pos hm, hv]
    rfl
  have hclass : classify project tower unit (Fetched.body html (some rows))
      = Outcome.rejected
          { project := project.text, tower := tower.text, unit := unit.text,
            reason := "Unit name mismatch - expected: " ++ unit.text ++ ", got: " ++ v,
            details := Details.fields (extractData rows) } := by
    rw [classify_table, if_neg hdata, if_pos hm, hv]
    rfl
  rw [hleaf]
  exact ⟨rfl, rfl, rfl, rfl, hclass, logRejectedEntry_rejectedStream J st _, rfl, rfl⟩

/-- Witness of C5 (amended): unit `B-203` with a `Flat No.` cell `B-204`. -/
theorem mismatch_rejected_witness :
    ownGet (extractData [["Name", "A. Sharma", "Flat No.", "B-204"]]) "Flat No." = some "B-204"
    ∧ "B-204" ≠ "" ∧ "B-204" ≠ "B-203"
    ∧ (leafCycle nodeJson initialState ⟨"7", "Heartbeat City"⟩ ⟨"12", "Tower B"⟩
        ⟨"203", "B-203"⟩
        (Fetched.body "" (some [["Name", "A. Sharma", "Flat No.", "B-204"]]))
      = logRejectedEntry nodeJson initialState
          { project := "Heartbeat City", tower := "Tower B", unit := "B-203",
            reason := "Unit name mismatch - expected: " ++ "B-203" ++ ", got: " ++ "B-204",
            details :=
              Details.fields (extractData [["Name", "A. Sharma", "Flat No.", "B-204"]]) })
    ∧ "Unit name mismatch - expected: " ++ "B-203" ++ ", got: " ++ "B-204"
        = "Unit name mismatch - expected: B-203, got: B-204"
    ∧ (leafCycle nodeJson initialState ⟨"7", "Heartbeat City"⟩ ⟨"12", "Tower B"⟩
        ⟨"203", "B-203"⟩
        (Fetched.body "" (some [["Name", "A. Sharma", "Flat No.", "B-204"]]))).rejectedStream
      = ["[\n",
         "\x7b\n  \"project\": \"Heartbeat City\",\n  \"tower\": \"Tower B\",\n"
           ++ "  \"unit\": \"B-203\",\n"
           ++ "  \"reason\": \"Unit name mismatch - expected: B-203, got: B-204\",\n"
           ++ "  \"details\": \x7b\n    \"Name\": \"A. Sharma\",\n"
           ++ "    \"Flat No.\": \"B-204\"\n  \x7d\n\x7d"]
    ∧ (leafCycle nodeJson initialState ⟨"7", "Heartbeat City"⟩ ⟨"12", "Tower B"⟩
        ⟨"203", "B-203"⟩
        (Fetched.body "" (some [["Name", "A. Sharma", "Flat No.", "B-204"]]))).writeStream
      = ["[\n"] :=
  ⟨by decide, by decide, by decide,
    (mismatch_rejected nodeJson initialState ⟨"7", "Heartbeat City"⟩ ⟨"12", "Tower B"⟩
      ⟨"203", "B-203"⟩ "" [["Name", "A. Sharma", "Flat No.", "B-204"]] "B-204"
      (by decide) (by decide) (by decide)).1, by decide,
    by set_option maxRecDepth 8000 in decide, by decide⟩

/-- C6: for every project, tower and unit and every payload with a bordered table whose
extracted map `m` is non-empty and either has no `"Flat No."` or has it equal to the unit
label, the leaf cycle writes the accepted record
`{project, tower, unit, details: m}` with the three labels and `m` itself: the accepted
stream gains the separator (unless the record is the first) and the serialized record,
its flag is cleared and `entryCount` grows by one; the rejected stream, its flag and its
counter are untouched. -/
theorem accept_path (J : Json) (st : State) (project tower unit : SelectOption)
    (html : String) (rows : List (List String))
    (hdata : extractData rows ≠ [])
    (hflat : ownGet (extractData rows) "Flat No." = none
      ∨ ownGet (extractData rows) "Flat No." = some unit.text) :
    classify project tower unit (Fetched.body html (some rows))
      = Outcome.accepted
          { project := project.text, tower := tower.text, unit := unit.text,
            details := extractData rows }
    ∧ leafCycle J st project tower unit (Fetched.body html (some rows))
      = writeResult J st
          { project := project.text, tower := tower.text, unit := unit.text,
            details := extractData rows }
    ∧ (leafCycle J st project tower unit (Fetched.body html (some rows))).entryCount
        = st.entryCount + 1
    ∧ (leafCycle J st project tower unit (Fetched.body html (some rows))).rejectedStream
        = st.rejectedStream
    ∧ (leafCycle J st project tower unit (Fetched.body html (some rows))).isFirstRejected
        = st.isFirstRejected
    ∧ (leafCycle J st project tower unit (Fetched.body html (some rows))).rejectedCount
        = st.rejectedCount
    ∧ (leafCycle J st project tower unit (Fetched.body html (some rows))).writeStream
      = st.writeStream ++ (if st.isFirstEntry then [] else [",\n"])
          ++ [J.ofResult
                { project := project.text, tower := tower.text, unit := unit.text,
                  details := extractData rows }]
    ∧ (leafCycle J st project tower unit (Fetched.body html (some rows))).isFirstEntry
        = false := by
  have hm : mismatch (ownGet (extractData rows) "Flat No.") unit.text = false := by
    rcases hflat with h | h <;> simp [h, mismatch]
  have hc : classify project tower unit (Fetched.body html (some rows))
      = Outcome.accepted
          { project := project.text, tower := tower.text, unit := unit.text,
            details := extractData rows } := by
    rw [classify_table]
    simp [hdata, hm]
  have hleaf := leafCycle_eq_record J st project tower unit (Fetched.body html (some rows))
  rw [hc] at hleaf
  rw [hleaf]
  exact ⟨hc, rfl, rfl, rfl, rfl, rfl, writeResult_writeStream J st _, rfl⟩

/-- Witness of C6: the map with `Name`, `Mobile` and `Flat No.` for unit `C-101`. -/
theorem accept_path_witness :
    extractData [["Name", "A. Sharma", "Mobile", "9999999999"],
        ["Flat No.", "C-101", "Flat No.", "C-101"]]
      = [("Name", "A. Sharma"), ("Mobile", "9999999999"), ("Flat No.", "C-101")]
    ∧ ownGet (extractData [["Name", "A. Sharma", "Mobile", "9999999999"],
        ["Flat No.", "C-101", "Flat No.", "C-101"]]) "Flat No." = some "C-101"
    ∧ leafCycle nodeJson initialState ⟨"7", "Heartbeat City"⟩ ⟨"12", "Tower C"⟩
        ⟨"101", "C-101"⟩
        (Fetched.body "" (some [["Name", "A. Sharma", "Mobile", "9999999999"],
          ["Flat No.", "C-101", "Flat No.", "C-101"]]))
      = writeResult nodeJson initialState
          { project := "Heartbeat City", tower := "Tower C", unit := "C-101",
            details := extractData [["Name", "A. Sharma", "Mobile", "9999999999"],
              ["Flat No.", "C-101", "Flat No.", "C-101"]] }
    ∧ (leafCycle nodeJson initialState ⟨"7", "Heartbeat City"⟩ ⟨"12", "Tower C"⟩
        ⟨"101", "C-101"⟩
        (Fetched.body "" (some [["Name", "A. Sharma", "Mobile", "9999999999"],
          ["Flat No.", "C-101", "Flat No.", "C-101"]]))).writeStream
      = ["[\n",
         "\x7b\n  \"project\": \"Heartbeat City\",\n  \"tower\": \"Tower C\",\n"
           ++ "  \"unit\": \"C-101\",\n"
           ++ "  \"details\": \x7b\n    \"Name\": \"A. Sharma\",\n"
           ++ "    \"Mobile\": \"9999999999\",\n"
           ++ "    \"Flat No.\": \"C-101\"\n  \x7d\n\x7d"]
    ∧ (leafCycle nodeJson initialState ⟨"7", "Heartbeat City"⟩ ⟨"12", "Tower C"⟩
        ⟨"101", "C-101"⟩
        (Fetched.body "" (some [["Name", "A. Sharma", "Mobile", "9999999999"],
          ["Flat No.", "C-101", "Flat No.", "C-101"]]))).rejectedStream
      = ["[\n"] :=
  ⟨by decide, by decide,
    (accept_path nodeJson initialState ⟨"7", "Heartbeat City"⟩ ⟨"12", "Tower C"⟩
      ⟨"101", "C-101"⟩ "" [["Name", "A. Sharma", "Mobile", "9999999999"],
        ["Flat No.", "C-101", "Flat No.", "C-101"]] (by decide) (Or.inr (by decide))).2.1,
    by set_option maxRecDepth 8000 in decide, by decide⟩

/-- C7: for every payload without a bordered table and every selection path, the leaf
cycle logs the rejected entry with reason `"No table found"` and the raw payload as
details, whatever else the payload holds (no row is read, no unit name compared): the
rejected stream gains the separator (unless the entry is the first) and the serialized
entry, its flag is cleared and `rejectedCount` grows by one; the accepted stream, its
flag and its counter are untouched. From the write setup the rejected stream is the
opening bracket followed by the serialized entry. -/
theorem no_table_rejected (J : Json) (st : State) (project tower unit : SelectOption)
    (html : String) :
    classify project tower unit (Fetched.body html none)
      = Outcome.rejected
          { project := project.text, tower := tower.text, unit := unit.text,
            reason := "No table found", details := Details.text html }
    ∧ leafCycle J st project tower unit (Fetched.body html none)
      = logRejectedEntry J st
          { project := project.text, tower := tower.text, unit := unit.text,
            reason := "No table found", details := Details.text html }
    ∧ (leafCycle J st project tower unit (Fetched.body html none)).rejectedCount
        = st.rejectedCount + 1
    ∧ (leafCycle J st project tower unit (Fetched.body html none)).writeStream
        = st.writeStream
    ∧ (leafCycle J st project tower unit (Fetched.body html none)).isFirstEntry
        = st.isFirstEntry
    ∧ (leafCycle J st project tower unit (Fetched.body html none)).entryCount
        = st.entryCount
    ∧ (leafCycle J st project tower unit (Fetched.body html none)).rejectedStream
      = st.rejectedStream ++ (if st.isFirstRejected then [] else [",\n"])
          ++ [J.ofRejected
                { project := project.text, tower := tower.text, unit := unit.text,
                  reason := "No table found", details := Details.text html }]
    ∧ (leafCycle J st project tower unit (Fetched.body html none)).isFirstRejected = false
    ∧ (leafCycle J initialState project tower unit (Fetched.body html none)).rejectedStream
      = ["[\n", J.ofRejected
                  { project := project.text, tower := tower.text, unit := unit.text,
                    reason := "No table found", details := Details.text html }]
    ∧ (leafCycle nodeJson initialState ⟨"7", "Heartbeat City"⟩ ⟨"12", "Tower B"⟩
        ⟨"203", "B-203"⟩ (Fetched.body "<p>none</p>" none)).rejectedStream
      = ["[\n",
         "\x7b\n  \"project\": \"Heartbeat City\",\n  \"tower\": \"Tower B\",\n"
           ++ "  \"unit\": \"B-203\",\n  \"reason\": \"No table found\",\n"
           ++ "  \"details\": \"<p>none</p>\"\n\x7d"] :=
  ⟨rfl, rfl, rfl, rfl, rfl, rfl, logRejectedEntry_rejectedStream J st _, rfl,
    logRejectedEntry_rejectedStream J initialState _, by decide⟩

/-! ## The loops -/

theorem intersperse_concat (sep x : String) (l : List String) :
    (l ++ [x]).intersperse sep
      = if l.isEmpty then [x] else l.intersperse sep ++ [sep, x] := by
  induction l with
  | nil => rfl
  | cons a l ih =>
    cases l with
    | nil => rfl
    | cons b l =>
      simp only [List.cons_append, List.intersperse_cons₂, List.isEmpty_cons] at ih ⊢
      rw [ih]
      simp

theorem writeResult_stateAfter (J : Json) (A : List Result) (R : List RejectedEntry)
    (result : Result) :
    writeResult J (stateAfter J A R) result = stateAfter J (A ++ [result]) R := by
  simp only [writeResult, stateAfter, List.map_append, List.map_cons, List.map_nil,
    intersperse_concat, List.length_append, List.length_cons, List.length_nil,
    List.isEmpty_eq_true, List.map_eq_nil_iff]
  cases A <;> simp

theorem logRejectedEntry_stateAfter (J : Json) (A : List Result) (R : List RejectedEntry)
    (entry : RejectedEntry) :
    logRejectedEntry J (stateAfter J A R) entry = stateAfter J A (R ++ [entry]) := by
  simp only [logRejectedEntry, stateAfter, List.map_append, List.map_cons, List.map_nil,
    intersperse_concat, List.length_append, List.length_cons, List.length_nil,
    List.isEmpty_eq_true, List.map_eq_nil_iff]
  cases R <;> simp

theorem initialState_eq (J : Json) : initialState = stateAfter J [] [] := rfl

/-- One leaf step from a state of the form `stateAfter`. -/
theorem leafCycle_stateAfter (J : Json) (project : SelectOption) (A : List Result)
    (R : List RejectedEntry) (l : Leaf) :
    leafCycle J (stateAfter J A R) project l.tower l.unit l.response
      = stateAfter J (A ++ (acceptedOf project l).toList) (R ++ (rejectedOf project l).toList) := by
  rw [leafCycle_eq_record]
  unfold acceptedOf rejectedOf
  cases classify project l.tower l.unit l.response with
  | accepted result => simp [record, writeResult_stateAfter]
  | rejected entry => simp [record, logRejectedEntry_stateAfter]

/-- The nested loops visit the leaves in enumeration order. -/
theorem towerLoop_eq_foldl_leaves (J : Json) (project : SelectOption)
    (towers : List TowerVisit) (st : State) :
    towerLoop J project towers st
      = (leaves towers).foldl (fun s l => leafCycle J s project l.tower l.unit l.response) st := by
  induction towers generalizing st with
  | nil => rfl
  | cons t towers ih =>
    have hstep : towerLoop J project (t :: towers) st
        = towerLoop J project towers (unitLoop J project t.tower t.units st) := rfl
    rw [hstep, ih]
    simp only [leaves, List.flatMap_cons, List.foldl_append]
    congr 1
    simp only [unitLoop, List.foldl_map]

theorem foldl_leaves_stateAfter (J : Json) (project : SelectOption) (ls : List Leaf)
    (A : List Result) (R : List RejectedEntry) :
    ls.foldl (fun s l => leafCycle J s project l.tower l.unit l.response) (stateAfter J A R)
      = stateAfter J (A ++ ls.filterMap (acceptedOf project))
          (R ++ ls.filterMap (rejectedOf project)) := by
  induction ls generalizing A R with
  | nil => simp
  | cons l ls ih =>
    rw [List.foldl_cons, leafCycle_stateAfter, ih]
    cases ha : acceptedOf project l <;> cases hr : rejectedOf project l <;>
      simp [List.filterMap_cons, ha, hr]

/-- The state when both loops have finished. -/
theorem towerLoop_initialState (J : Json) (project : SelectOption)
    (towers : List TowerVisit) :
    towerLoop J project towers initialState
      = stateAfter J ((leaves towers).filterMap (acceptedOf project))
          ((leaves towers).filterMap (rejectedOf project)) := by
  rw [towerLoop_eq_foldl_leaves, initialState_eq J, foldl_leaves_stateAfter]
  simp

/-- Every leaf is classified one way: it has an accepted record or a rejected one, not
both. -/
theorem acceptedOf_xor_rejectedOf (project : SelectOption) (l : Leaf) :
    (∃ r, acceptedOf project l = some r ∧ rejectedOf project l = none)
      ∨ (∃ e, acceptedOf project l = none ∧ rejectedOf project l = some e) := by
  unfold acceptedOf rejectedOf
  cases classify project l.tower l.unit l.response with
  | accepted result => exact Or.inl ⟨result, rfl, rfl⟩
  | rejected entry => exact Or.inr ⟨entry, rfl, rfl⟩

theorem length_filterMap_add (project : SelectOption) (ls : List Leaf) :
    (ls.filterMap (acceptedOf project)).length + (ls.filterMap (rejectedOf project)).length
      = ls.length := by
  induction ls with
  | nil => rfl
  | cons l ls ih =>
    rcases acceptedOf_xor_rejectedOf project l with ⟨r, ha, hr⟩ | ⟨e, ha, hr⟩ <;>
      simp [List.filterMap_cons, ha, hr] <;> omega

theorem length_leaves (towers : List TowerVisit) :
    (leaves towers).length = (towers.map (fun t => t.units.length)).sum := by
  induction towers with
  | nil => rfl
  | cons t towers ih =>
    simp only [leaves, List.flatMap_cons, List.length_append, List.length_map, List.map_cons,
      List.sum_cons] at ih ⊢
    rw [ih]

/-! ## File text -/

theorem join_cons (a : String) (l : List String) :
    String.join (a :: l) = a ++ String.join l := by
  apply String.ext
  simp [String.data_join]

theorem join_append (l m : List String) :
    String.join (l ++ m) = String.join l ++ String.join m := by
  apply String.ext
  simp [String.data_join]

theorem join_nil : String.join [] = "" := rfl

theorem intercalate_go_eq (sep acc : String) (l : List String) :
    String.intercalate.go acc sep l = acc ++ String.join (l.flatMap (fun a => [sep, a])) := by
  induction l generalizing acc with
  | nil =>
    apply String.ext
    simp [String.intercalate.go, String.data_join]
  | cons a l ih =>
    rw [String.intercalate.go, ih]
    apply String.ext
    simp [String.data_join]

theorem intersperse_cons_eq (sep a : String) (l : List String) :
    (a :: l).intersperse sep = a :: l.flatMap (fun b => [sep, b]) := by
  induction l generalizing a with
  | nil => rfl
  | cons b l ih =>
    rw [List.intersperse_cons₂, ih]
    simp

theorem intercalate_eq_join (sep : String) (l : List String) :
    sep.intercalate l = String.join (l.intersperse sep) := by
  cases l with
  | nil => rfl
  | cons a l =>
    rw [intersperse_cons_eq, join_cons]
    exact intercalate_go_eq sep a l

/-- The text of a stream that holds the opening bracket, the items with a separator
between neighbours, and the closing bracket. -/
theorem fileText_framed (items : List String) :
    fileText (("[\n" :: items.intersperse ",\n") ++ ["\n]"])
      = "[\n" ++ ",\n".intercalate items ++ "\n]" := by
  unfold fileText
  rw [join_append, join_cons, intercalate_eq_join, join_cons, join_nil]
  apply String.ext
  simp

theorem length_intersperse (sep : String) (l : List String) :
    (l.intersperse sep).length = l.length + (l.length - 1) := by
  cases l with
  | nil => rfl
  | cons a l =>
    rw [intersperse_cons_eq]
    have h : (l.flatMap (fun b => [sep, b])).length = 2 * l.length := by
      induction l with
      | nil => rfl
      | cons b l ih =>
        rw [List.flatMap_cons, List.length_append, ih]
        simp only [List.length_cons, List.length_nil]
        omega
    simp only [List.length_cons, h]
    omega

theorem foldl_writeResult_stateAfter (J : Json) (A B : List Result) (R : List RejectedEntry) :
    B.foldl (writeResult J) (stateAfter J A R) = stateAfter J (A ++ B) R := by
  induction B generalizing A with
  | nil => simp
  | cons b B ih => rw [List.foldl_cons, writeResult_stateAfter, ih]; simp

theorem foldl_logRejectedEntry_stateAfter (J : Json) (A : List Result)
    (R S : List RejectedEntry) :
    S.foldl (logRejectedEntry J) (stateAfter J A R) = stateAfter J A (R ++ S) := by
  induction S generalizing R with
  | nil => simp
  | cons e S ih => rw [List.foldl_cons, logRejectedEntry_stateAfter, ih]; simp

theorem run_eq (J : Json) (project : SelectOption) (towers : List TowerVisit) :
    run J project towers
      = closeStreams (stateAfter J ((leaves towers).filterMap (acceptedOf project))
          ((leaves towers).filterMap (rejectedOf project))) := by
  rw [run, towerLoop_initialState]

theorem unitLoop_append (J : Json) (project tower : SelectOption) (pre post : List UnitVisit)
    (st : State) :
    unitLoop J project tower (pre ++ post) st
      = unitLoop J project tower post (unitLoop J project tower pre st) := by
  simp only [unitLoop, List.foldl_append]

theorem towerLoop_append (J : Json) (project : SelectOption) (before after : List TowerVisit)
    (st : State) :
    towerLoop J project (before ++ after) st
      = towerLoop J project after (towerLoop J project before st) := by
  simp only [towerLoop, List.foldl_append]

theorem leaves_append (before after : List TowerVisit) :
    leaves (before ++ after) = leaves before ++ leaves after := by
  simp only [leaves, List.flatMap_append]

theorem leaves_cons (t : TowerVisit) (after : List TowerVisit) :
    leaves (t :: after)
      = t.units.map (fun u => { tower := t.tower, unit := u.unit, response := u.response })
          ++ leaves after := by
  simp only [leaves, List.flatMap_cons]

theorem leafCycle_counters (J : Json) (st : State) (project tower unit : SelectOption)
    (response : Fetched) :
    ((leafCycle J st project tower unit response).entryCount = st.entryCount + 1
        ∧ (leafCycle J st project tower unit response).rejectedCount = st.rejectedCount)
      ∨ ((leafCycle J st project tower unit response).entryCount = st.entryCount
        ∧ (leafCycle J st project tower unit response).rejectedCount = st.rejectedCount + 1) := by
  rw [leafCycle_eq_record]
  cases classify project tower unit response with
  | accepted result => exact Or.inl ⟨rfl, rfl⟩
  | rejected entry => exact Or.inr ⟨rfl, rfl⟩

/-- C2: when the tower and unit loops have finished, `entryCount + rejectedCount` is the
number of leaves visited, the sum over the towers of the number of units listed under
each, whatever each leaf's request yields; and every leaf cycle adds one to exactly one of
the two counters and leaves the other as it was. -/
theorem counters_sum_to_leaves (J : Json) (project : SelectOption)
    (towers : List TowerVisit) :
    (towerLoop J project towers initialState).entryCount
        + (towerLoop J project towers initialState).rejectedCount
      = (towers.map (fun t => t.units.length)).sum
    ∧ (run J project towers).entryCount + (run J project towers).rejectedCount
      = (towers.map (fun t => t.units.length)).sum
    ∧ ∀ (st : State) (tower unit : SelectOption) (response : Fetched),
        ((leafCycle J st project tower unit response).entryCount = st.entryCount + 1
          ∧ (leafCycle J st project tower unit response).rejectedCount = st.rejectedCount)
        ∨ ((leafCycle J st project tower unit response).entryCount = st.entryCount
          ∧ (leafCycle J st project tower unit response).rejectedCount
              = st.rejectedCount + 1) := by
  have h : (towerLoop J project towers initialState).entryCount
        + (towerLoop J project towers initialState).rejectedCount
      = (towers.map (fun t => t.units.length)).sum := by
    rw [towerLoop_initialState, ← length_leaves, ← length_filterMap_add project]
    rfl
  exact ⟨h, h, fun st tower unit response => leafCycle_counters J st project tower unit response⟩

/-- C3: for the `n` records appended to a writer, in a run or as any sequence of appends
after the write setup, the chunks written are the opening bracket, the serialized records
with one separator between neighbours (`n - 1` separators, none leading or trailing), and
the closing bracket; the file text is `"[\n"`, the serialized records joined by `",\n"`,
then `"\n]"`, and with no record it is `"[\n\n]"`. This holds for the accepted and for
the rejected file. -/
theorem file_text_is_one_list (J : Json) :
    (∀ (project : SelectOption) (towers : List TowerVisit),
      fileText (run J project towers).writeStream
          = "[\n" ++ ",\n".intercalate
              (((leaves towers).filterMap (acceptedOf project)).map J.ofResult) ++ "\n]"
        ∧ fileText (run J project towers).rejectedStream
          = "[\n" ++ ",\n".intercalate
              (((leaves towers).filterMap (rejectedOf project)).map J.ofRejected) ++ "\n]")
    ∧ (∀ results : List Result,
        (closeStreams (results.foldl (writeResult J) initialState)).writeStream
            = ("[\n" :: (results.map J.ofResult).intersperse ",\n") ++ ["\n]"]
          ∧ ((results.map J.ofResult).intersperse ",\n").length
              = results.length + (results.length - 1)
          ∧ fileText (closeStreams (results.foldl (writeResult J) initialState)).writeStream
            = "[\n" ++ ",\n".intercalate (results.map J.ofResult) ++ "\n]")
    ∧ (∀ entries : List RejectedEntry,
        (closeStreams (entries.foldl (logRejectedEntry J) initialState)).rejectedStream
            = ("[\n" :: (entries.map J.ofRejected).intersperse ",\n") ++ ["\n]"]
          ∧ ((entries.map J.ofRejected).intersperse ",\n").length
              = entries.length + (entries.length - 1)
          ∧ fileText
              (closeStreams (entries.foldl (logRejectedEntry J) initialState)).rejectedStream
            = "[\n" ++ ",\n".intercalate (entries.map J.ofRejected) ++ "\n]")
    ∧ fileText (closeStreams initialState).writeStream = "[\n\n]"
    ∧ fileText (closeStreams initialState).rejectedStream = "[\n\n]" := by
  refine ⟨?_, ?_, ?_, by decide, by decide⟩
  · intro project towers
    rw [run_eq]
    exact ⟨fileText_framed _, fileText_framed _⟩
  · intro results
    rw [initialState_eq J, foldl_writeResult_stateAfter]
    refine ⟨rfl, ?_, fileText_framed _⟩
    rw [length_intersperse, List.length_map]
  · intro entries
    rw [initialState_eq J, foldl_logRejectedEntry_stateAfter]
    refine ⟨rfl, ?_, fileText_framed _⟩
    rw [length_intersperse, List.length_map]

/-- C4: the chunks written to the accepted stream are the opening bracket, the
serializations of the accepted records of the leaves, in enumeration order (towers in
listed order, units in listed order under each), separated, and the closing bracket; the
rejected stream holds the rejected records of the leaves in the same way. Every leaf
yields exactly one record, accepted or rejected, and the record carries the project label
and its leaf's tower and unit labels. -/
theorem streams_follow_enumeration (J : Json) (project : SelectOption)
    (towers : List TowerVisit) :
    (run J project towers).writeStream
      = ("[\n" :: (((leaves towers).filterMap (acceptedOf project)).map J.ofResult).intersperse
          ",\n") ++ ["\n]"]
    ∧ (run J project towers).rejectedStream
      = ("[\n" :: (((leaves towers).filterMap (rejectedOf project)).map
          J.ofRejected).intersperse ",\n") ++ ["\n]"]
    ∧ leaves towers
      = towers.flatMap (fun t =>
          t.units.map (fun u => { tower := t.tower, unit := u.unit, response := u.response }))
    ∧ (∀ l : Leaf,
        (∃ r, acceptedOf project l = some r ∧ rejectedOf project l = none
            ∧ r.project = project.text ∧ r.tower = l.tower.text ∧ r.unit = l.unit.text)
        ∨ (∃ e, acceptedOf project l = none ∧ rejectedOf project l = some e
            ∧ e.project = project.text ∧ e.tower = l.tower.text ∧ e.unit = l.unit.text))
    ∧ ((leaves towers).filterMap (acceptedOf project)).length
        + ((leaves towers).filterMap (rejectedOf project)).length
      = (leaves towers).length := by
  refine ⟨?_, ?_, rfl, ?_, length_filterMap_add project _⟩
  · rw [run_eq]; rfl
  · rw [run_eq]; rfl
  · intro l
    unfold acceptedOf rejectedOf
    cases hc : classify project l.tower l.unit l.response with
    | accepted r =>
      left
      refine ⟨r, rfl, rfl, ?_⟩
      obtain ⟨html, rows, -, -, -, hr⟩ := (classify_accepted_iff _ _ _ _ _).1 hc
      subst hr
      exact ⟨rfl, rfl, rfl⟩
    | rejected e =>
      right
      refine ⟨e, rfl, rfl, ?_⟩
      cases hresp : l.response with
      | threw message =>
        rw [hresp] at hc
        simp only [classify, Outcome.rejected.injEq] at hc
        subst hc
        exact ⟨rfl, rfl, rfl⟩
      | body html table =>
        rw [hresp] at hc
        cases table with
        | none =>
          simp only [classify, Outcome.rejected.injEq] at hc
          subst hc
          exact ⟨rfl, rfl, rfl⟩
        | some rows =>
          rw [classify_table] at hc
          split at hc
          · simp only [Outcome.rejected.injEq] at hc
            subst hc
            exact ⟨rfl, rfl, rfl⟩
          · split at hc
            · simp only [Outcome.rejected.injEq] at hc
              subst hc
              exact ⟨rfl, rfl, rfl⟩
            · cases hc

theorem acceptedOf_threw (project tower unit : SelectOption) (message : String) :
    acceptedOf project { tower := tower, unit := unit, response := Fetched.threw message }
      = none := rfl

theorem rejectedOf_threw (project tower unit : SelectOption) (message : String) :
    rejectedOf project { tower := tower, unit := unit, response := Fetched.threw message }
      = some { project := project.text, tower := tower.text, unit := unit.text,
               reason := "Fetch or parse error", details := Details.text message } := rfl

/-- C8: a leaf whose fetch or extraction raises an error with message `message` logs
exactly one rejected entry, with reason `"Fetch or parse error"` and the message as
details: the rejected stream gains the separator (unless the entry is the first) and the
serialized entry, its flag is cleared and its counter grows by one; nothing of the
accepted stream is touched. The error stays in the leaf cycle:
the unit loop goes on with the later units of the tower and the tower loop with the later
towers, from the state that one logged entry leaves. The accepted file of the run is the
one the run writes without the failing leaf, and the rejected file holds the records of
the earlier leaves, this entry, and the records of the later leaves, each as classified
on its own. -/
theorem fetch_error_contained (J : Json) (project tower unit : SelectOption)
    (message : String) (before after : List TowerVisit) (pre post : List UnitVisit)
    (st : State) :
    leafCycle J st project tower unit (Fetched.threw message)
      = logRejectedEntry J st
          { project := project.text, tower := tower.text, unit := unit.text,
            reason := "Fetch or parse error", details := Details.text message }
    ∧ (leafCycle J st project tower unit (Fetched.threw message)).rejectedCount
        = st.rejectedCount + 1
    ∧ (leafCycle J st project tower unit (Fetched.threw message)).writeStream = st.writeStream
    ∧ (leafCycle J st project tower unit (Fetched.threw message)).isFirstEntry
        = st.isFirstEntry
    ∧ (leafCycle J st project tower unit (Fetched.threw message)).entryCount = st.entryCount
    ∧ towerLoop J project
        (before ++ { tower := tower,
                     units := pre ++ { unit := unit, response := Fetched.threw message } :: post }
          :: after) st
      = towerLoop J project after
          (unitLoop J project tower post
            (logRejectedEntry J (unitLoop J project tower pre (towerLoop J project before st))
              { project := project.text, tower := tower.text, unit := unit.text,
                reason := "Fetch or parse error", details := Details.text message }))
    ∧ (run J project
        (before ++ { tower := tower,
                     units := pre ++ { unit := unit, response := Fetched.threw message } :: post }
          :: after)).writeStream
      = (run J project (before ++ { tower := tower, units := pre ++ post } :: after)).writeStream
    ∧ (leaves
        (before ++ { tower := tower,
                     units := pre ++ { unit := unit, response := Fetched.threw message } :: post }
          :: after)).filterMap (rejectedOf project)
      = (leaves (before ++ [{ tower := tower, units := pre }])).filterMap (rejectedOf project)
        ++ { project := project.text, tower := tower.text, unit := unit.text,
             reason := "Fetch or parse error", details := Details.text message }
        :: (leaves ({ tower := tower, units := post } :: after)).filterMap
            (rejectedOf project)
    ∧ (leafCycle J st project tower unit (Fetched.threw message)).rejectedStream
      = st.rejectedStream ++ (if st.isFirstRejected then [] else [",\n"])
          ++ [J.ofRejected
                { project := project.text, tower := tower.text, unit := unit.text,
                  reason := "Fetch or parse error", details := Details.text message }]
    ∧ (leafCycle J st project tower unit (Fetched.threw message)).isFirstRejected = false
    ∧ (run J project
        (before ++ { tower := tower,
                     units := pre ++ { unit := unit, response := Fetched.threw message } :: post }
          :: after)).rejectedStream
      = ("[\n" ::
          (((leaves (before ++ [{ tower := tower, units := pre }])).filterMap
                (rejectedOf project)
              ++ { project := project.text, tower := tower.text, unit := unit.text,
                   reason := "Fetch or parse error", details := Details.text message }
              :: (leaves ({ tower := tower, units := post } :: after)).filterMap
                  (rejectedOf project)).map J.ofRejected).intersperse ",\n")
        ++ ["\n]"]
    ∧ (run nodeJson ⟨"7", "Heartbeat City"⟩
        [{ tower := ⟨"12", "Tower B"⟩,
           units := [{ unit := ⟨"203", "B-203"⟩, response := Fetched.threw "socket hang up" },
                     { unit := ⟨"204", "B-204"⟩,
                       response := Fetched.body "" (some [["Flat No.", "B-204", "Name", "X"]]) },
                     { unit := ⟨"205", "B-205"⟩, response := Fetched.body "gone" none }] }]).rejectedStream
      = ["[\n",
         "\x7b\n  \"project\": \"Heartbeat City\",\n  \"tower\": \"Tower B\",\n"
           ++ "  \"unit\": \"B-203\",\n  \"reason\": \"Fetch or parse error\",\n"
           ++ "  \"details\": \"socket hang up\"\n\x7d",
         ",\n",
         "\x7b\n  \"project\": \"Heartbeat City\",\n  \"tower\": \"Tower B\",\n"
           ++ "  \"unit\": \"B-205\",\n  \"reason\": \"No table found\",\n"
           ++ "  \"details\": \"gone\"\n\x7d",
         "\n]"] := by
  have hrej : (leaves
        (before ++ { tower := tower,
                     units := pre ++ { unit := unit, response := Fetched.threw message } :: post }
          :: after)).filterMap (rejectedOf project)
      = (leaves (before ++ [{ tower := tower, units := pre }])).filterMap (rejectedOf project)
        ++ { project := project.text, tower := tower.text, unit := unit.text,
             reason := "Fetch or parse error", details := Details.text message }
        :: (leaves ({ tower := tower, units := post } :: after)).filterMap
            (rejectedOf project) := by
    have hnil : leaves [] = [] := rfl
    simp only [leaves_append, leaves_cons, hnil, List.map_append, List.map_cons,
      List.filterMap_append, List.filterMap_cons, rejectedOf_threw,
      List.append_nil, List.append_assoc, List.cons_append]
  refine ⟨rfl, rfl, rfl, rfl, rfl, ?_, ?_, hrej,
    logRejectedEntry_rejectedStream J st _, rfl, ?_, by decide⟩
  · rw [towerLoop_append]
    have hstep : ∀ (t : TowerVisit) (s : State),
        towerLoop J project (t :: after) s
          = towerLoop J project after (unitLoop J project t.tower t.units s) :=
      fun _ _ => rfl
    rw [hstep, unitLoop_append]
    rfl
  · rw [run_eq, run_eq]
    simp only [leaves_append, leaves_cons, List.map_append, List.map_cons,
      List.filterMap_append, List.filterMap_cons, acceptedOf_threw]
    rfl
  · rw [run_eq, hrej]
    rfl

/-! ## The CSV row -/

theorem replaceQuotes_eq (l : List Char) :
    replaceQuotes l
      = ((l.map (fun c => if c = '"' then "\"\"" else String.singleton c)).map
          String.data).flatten := by
  induction l with
  | nil => rfl
  | cons c l ih =>
    by_cases h : c = '"'
    · simp only [replaceQuotes, h, if_true, List.map_cons, List.flatten_cons, ih]
      rfl
    · simp only [replaceQuotes, h, if_false, List.map_cons, List.flatten_cons, ih]
      rfl

theorem csvField_eq_specQuoted (field : String) : csvField field = specQuoted field := by
  unfold csvField specQuoted
  rw [replaceQuotes_eq, String.join_eq]

theorem orEmpty_eq (x : Option String) : orEmpty x = x.getD "" := by
  cases x with
  | none => rfl
  | some s =>
    by_cases h : s = ""
    · simp [orEmpty, h]
    · simp [orEmpty, h]

/-- C9: the CSV row of a record is its four fields `Name`, `Mobile`, `project`,
`Flat No.`, in this order, joined by commas; each field is its text with every double
quote doubled, wrapped in one pair of double quotes; a field the record lacks, and every
detail field of a record without details, is the empty quoted field `""`. The name
`A. "AJ" Sharma` is emitted as `"A. ""AJ"" Sharma"`. -/
theorem csvRow_four_quoted_fields (obj : ParsedRecord) :
    csvRow obj
      = specQuoted ((ownGet (obj.details.getD []) "Name").getD "") ++ ","
        ++ specQuoted ((ownGet (obj.details.getD []) "Mobile").getD "") ++ ","
        ++ specQuoted (obj.project.getD "") ++ ","
        ++ specQuoted ((ownGet (obj.details.getD []) "Flat No.").getD "")
    ∧ specQuoted "" = "\"\""
    ∧ csvRow { project := obj.project, details := none }
      = "\"\"" ++ "," ++ "\"\"" ++ "," ++ specQuoted (obj.project.getD "") ++ "," ++ "\"\""
    ∧ csvRow { project := none, details := none } = "\"\",\"\",\"\",\"\""
    ∧ csvRow { project := some "Heartbeat City",
               details := some [("Name", "A. \"AJ\" Sharma"), ("Mobile", "9999999999"),
                 ("Flat No.", "C-101")] }
      = "\"A. \"\"AJ\"\" Sharma\",\"9999999999\",\"Heartbeat City\",\"C-101\"" := by
  have hrow : csvRow obj
      = specQuoted ((ownGet (obj.details.getD []) "Name").getD "") ++ ","
        ++ specQuoted ((ownGet (obj.details.getD []) "Mobile").getD "") ++ ","
        ++ specQuoted (obj.project.getD "") ++ ","
        ++ specQuoted ((ownGet (obj.details.getD []) "Flat No.").getD "") := by
    unfold csvRow
    simp only [List.map_cons, List.map_nil, String.intercalate, String.intercalate.go,
      csvField_eq_specQuoted, orEmpty_eq]
  refine ⟨hrow, by decide, ?_, by decide, by decide⟩
  unfold csvRow
  simp only [List.map_cons, List.map_nil, String.intercalate, String.intercalate.go,
    csvField_eq_specQuoted, orEmpty_eq]
  rfl

/-! ## The extracted map -/

theorem ownGet_ownPut (data : FieldMap) (key value k : String) :
    ownGet (ownPut data key value) k = if k = key then some value else ownGet data k := by
  induction data with
  | nil =>
    by_cases h : k = key
    · simp [ownPut, ownGet, h]
    · have h2 : ¬ key = k := fun e => h e.symm
      simp [ownPut, ownGet, h, h2]
  | cons p data ih =>
    obtain ⟨k1, v1⟩ := p
    by_cases h1 : k1 = key
    · subst h1
      by_cases h : k = k1
      · simp [ownPut, ownGet, h]
      · have h2 : ¬ k1 = k := fun e => h e.symm
        simp [ownPut, ownGet, h, h2]
    · by_cases h : k = key
      · subst h
        simp [ownPut, ownGet, h1, ih]
      · simp only [ownPut, h1, if_false, ownGet, ih, h]

theorem mem_objectKeys_ownPut (data : FieldMap) (key value k : String) :
    k ∈ objectKeys (ownPut data key value) ↔ k = key ∨ k ∈ objectKeys data := by
  induction data with
  | nil => simp [ownPut, objectKeys]
  | cons p data ih =>
    obtain ⟨k1, v1⟩ := p
    by_cases h1 : k1 = key
    · subst h1
      simp [ownPut, objectKeys]
    · simp only [objectKeys, List.map_cons, List.mem_cons] at ih ⊢
      simp only [ownPut, h1, if_false, List.map_cons, List.mem_cons, ih]
      tauto

theorem nodup_objectKeys_ownPut (data : FieldMap) (key value : String)
    (h : (objectKeys data).Nodup) : (objectKeys (ownPut data key value)).Nodup := by
  induction data with
  | nil => simp [ownPut, objectKeys]
  | cons p data ih =>
    obtain ⟨k1, v1⟩ := p
    have hk : k1 ∉ objectKeys data ∧ (objectKeys data).Nodup := by
      simpa [objectKeys] using h
    by_cases h1 : k1 = key
    · subst h1
      simpa [ownPut, objectKeys] using h
    · have hput : objectKeys (ownPut ((k1, v1) :: data) key value)
          = k1 :: objectKeys (ownPut data key value) := by
        simp [ownPut, h1, objectKeys]
      rw [hput, List.nodup_cons]
      refine ⟨?_, ih hk.2⟩
      rw [mem_objectKeys_ownPut]
      rintro (e | e)
      · exact h1 e
      · exact hk.1 e

theorem ownGet_assign (data : FieldMap) (key value : String) (hkey : key ≠ "__proto__") :
    ownGet (assign data key value) = Function.update (ownGet data) key (some value) := by
  funext k
  rw [assign, if_neg hkey, ownGet_ownPut, Function.update_apply]

theorem nodup_objectKeys_assign (data : FieldMap) (key value : String)
    (h : (objectKeys data).Nodup) : (objectKeys (assign data key value)).Nodup := by
  unfold assign
  split
  · exact h
  · exact nodup_objectKeys_ownPut data key value h

theorem nodup_objectKeys_addRow (data : FieldMap) (cells : List String)
    (h : (objectKeys data).Nodup) : (objectKeys (addRow data cells)).Nodup := by
  unfold addRow
  split
  · exact nodup_objectKeys_assign _ _ _ (nodup_objectKeys_assign _ _ _ h)
  · exact h

theorem rowLabels_cons (row : List String) (rows : List (List String)) :
    rowLabels (row :: rows) = rowLabels [row] ++ rowLabels rows := by
  simp [rowLabels]

/-- One row of the script's walk agrees with one row of the specification's fold when
neither label of the row trims to `"__proto__"`. -/
theorem ownGet_addRow (data : FieldMap) (row : List String)
    (h : "__proto__" ∉ rowLabels [row]) :
    ownGet (addRow data row) = specRow (ownGet data) row := by
  unfold addRow specRow
  split
  · rename_i c0 c1 c2 c3
    have h0 : jsTrim c0 ≠ "__proto__" := by
      intro e
      apply h
      simp [rowLabels, e]
    have h2 : jsTrim c2 ≠ "__proto__" := by
      intro e
      apply h
      simp [rowLabels, e]
    rw [ownGet_assign _ _ _ h2, ownGet_assign _ _ _ h0]
  · rfl

theorem ownGet_foldl_addRow (rows : List (List String)) (data : FieldMap)
    (h : "__proto__" ∉ rowLabels rows) :
    ownGet (rows.foldl addRow data) = rows.foldl specRow (ownGet data) := by
  induction rows generalizing data with
  | nil => rfl
  | cons row rows ih =>
    rw [rowLabels_cons, List.mem_append, not_or] at h
    rw [List.foldl_cons, List.foldl_cons, ih _ h.2, ownGet_addRow _ _ h.1]

theorem nodup_objectKeys_foldl_addRow (rows : List (List String)) (data : FieldMap)
    (h : (objectKeys data).Nodup) : (objectKeys (rows.foldl addRow data)).Nodup := by
  induction rows generalizing data with
  | nil => exact h
  | cons row rows ih => exact ih _ (nodup_objectKeys_addRow data row h)

theorem addRow_of_length_ne (data : FieldMap) (row : List String) (h : row.length ≠ 4) :
    addRow data row = data := by
  unfold addRow
  split
  · simp at h
  · rfl

theorem extractData_of_no_four_cell_row (rows : List (List String))
    (h : ∀ row ∈ rows, row.length ≠ 4) : extractData rows = [] := by
  unfold extractData
  generalize ([] : FieldMap) = data
  induction rows generalizing data with
  | nil => rfl
  | cons row rows ih =>
    rw [List.foldl_cons, addRow_of_length_ne data row (h row (List.mem_cons_self _ _))]
    exact ih (fun r hr => h r (List.mem_cons_of_mem _ hr)) data

/-- C10 (as stated, refuted): on the one-row table
`[["__proto__", "x", "Name", "A. Sharma"]]` the specification's fold maps the key
`"__proto__"` to `"x"`, while the script's object has no such property: the assignment
`data["__proto__"] = "x"` reaches the setter inherited from `Object.prototype`. -/
theorem proto_label_is_not_stored :
    specFieldMap [["__proto__", "x", "Name", "A. Sharma"]] "__proto__" = some "x"
    ∧ ownGet (extractData [["__proto__", "x", "Name", "A. Sharma"]]) "__proto__" = none
    ∧ extractData [["__proto__", "x", "Name", "A. Sharma"]] = [("Name", "A. Sharma")] := by
  refine ⟨by decide, by decide, by decide⟩

/-- C10 (amended): for every table, given as its rows in order, each the list of its cell
texts, in which no four-cell row has a label that trims to `"__proto__"`, the extracted
map is the fold over the rows from the empty map, a four-cell row `[l1, v1, l2, v2]`
setting `trim l1` to `trim v1` and then `trim l2` to `trim v2`, any other row leaving the
map unchanged; its keys are distinct, and a table without a four-cell row yields the
empty map. -/
theorem extractData_eq_specFieldMap (rows : List (List String))
    (h : "__proto__" ∉ rowLabels rows) :
    (∀ key, ownGet (extractData rows) key = specFieldMap rows key)
    ∧ (objectKeys (extractData rows)).Nodup
    ∧ ((∀ row ∈ rows, row.length ≠ 4) → extractData rows = []) := by
  refine ⟨?_, ?_, extractData_of_no_four_cell_row rows⟩
  · intro key
    have hfold := ownGet_foldl_addRow rows [] h
    have hempty : ownGet [] = fun _ => none := by
      funext k
      rfl
    rw [hempty] at hfold
    exact congrFun hfold key
  · exact nodup_objectKeys_foldl_addRow rows [] List.nodup_nil

/-- Witness of C10 (amended): a table with a repeated label, padded cells and a
three-cell row. -/
theorem extractData_eq_specFieldMap_witness :
    "__proto__" ∉ rowLabels [[" Name ", "A. Sharma", "Mobile", "1"], ["only", "three", "cells"],
        ["Name", " B. Rao", "Flat No.", "C-101"]]
    ∧ extractData [[" Name ", "A. Sharma", "Mobile", "1"], ["only", "three", "cells"],
        ["Name", " B. Rao", "Flat No.", "C-101"]]
      = [("Name", "B. Rao"), ("Mobile", "1"), ("Flat No.", "C-101")]
    ∧ (∀ key, ownGet (extractData [[" Name ", "A. Sharma", "Mobile", "1"], ["only", "three", "cells"],
        ["Name", " B. Rao", "Flat No.", "C-101"]]) key
      = specFieldMap [[" Name ", "A. Sharma", "Mobile", "1"], ["only", "three", "cells"],
        ["Name", " B. Rao", "Flat No.", "C-101"]] key)
    ∧ (objectKeys (extractData [[" Name ", "A. Sharma", "Mobile", "1"],
        ["only", "three", "cells"], ["Name", " B. Rao", "Flat No.", "C-101"]])).Nodup
    ∧ ((∀ row ∈ [[" Name ", "A. Sharma", "Mobile", "1"], ["only", "three", "cells"],
          ["Name", " B. Rao", "Flat No.", "C-101"]], row.length ≠ 4) →
        extractData [[" Name ", "A. Sharma", "Mobile", "1"], ["only", "three", "cells"],
          ["Name", " B. Rao", "Flat No.", "C-101"]] = []) :=
  ⟨by decide, by decide,
    extractData_eq_specFieldMap [[" Name ", "A. Sharma", "Mobile", "1"],
      ["only", "three", "cells"], ["Name", " B. Rao", "Flat No.", "C-101"]] (by decide)⟩

end Autodata
